import Mathlib

/-!
Shallow embedding of the `meteo_proxy` core (cache service, Open-Meteo
client, weather orchestrator) and proofs about it.

Numbers (coordinates, temperatures, timestamps) are modelled as rationals;
machine time is an explicit parameter threaded through the cache
operations, mirroring `cachetools.TTLCache`'s `timer()` calls.
-/

namespace MeteoProxy

/-- Python's `round` on exact decimal inputs: round half to even.
Models `round(x, ndigits)`'s underlying integer rounding. -/
def roundHalfEven (x : ℚ) : ℤ :=
  let fl := ⌊x⌋
  let f := x - fl
  if f < 1/2 then fl
  else if 1/2 < f then fl + 1
  else if Even fl then fl else fl + 1

/-- `round(x, 2)`: rounding a coordinate to 2 decimal places
(`services/cache.py`, `_make_key`). -/
def round2 (x : ℚ) : ℚ := (roundHalfEven (x * 100) : ℚ) / 100

/-- Cache key. `CacheService._make_key` formats the rounded pair as the
string `weather:{lat_rounded}:{lon_rounded}`; that formatting is injective
in the rounded pair, so the key is modelled as the rounded pair itself. -/
structure CacheKey where
  latPart : ℚ
  lonPart : ℚ
deriving DecidableEq

/-- `CacheService._make_key`: pure, total key derivation from coordinates. -/
def makeKey (lat lon : ℚ) : CacheKey := ⟨round2 lat, round2 lon⟩

/-- `api/schemas.py` `Location`. -/
structure Location where
  lat : ℚ
  lon : ℚ
deriving DecidableEq

/-- `api/schemas.py` `CurrentWeather`. -/
structure CurrentWeather where
  temperatureC : ℚ
  windSpeedKmh : ℚ
deriving DecidableEq

/-- `api/schemas.py` `WeatherResponse`: the normalized weather record. -/
structure WeatherResponse where
  location : Location
  current : CurrentWeather
  source : String
  retrievedAt : ℚ
deriving DecidableEq

/-- One stored entry of the `cachetools.TTLCache` backing `CacheService`:
a key, the stored record, and the absolute expiry instant
(insertion time + ttl, the `_Link.expires` field). Entries are kept in
insertion order (oldest first), as in the TTLCache link list. -/
structure CacheEntry where
  key : CacheKey
  value : WeatherResponse
  expires : ℚ
deriving DecidableEq

/-- State of `CacheService`: the TTLCache contents plus the module-level
`cache_hits` / `cache_misses` counters and the `cache_size` gauge. -/
structure CacheState where
  maxsize : ℕ
  ttl : ℚ
  entries : List CacheEntry
  hits : ℕ
  misses : ℕ
  sizeGauge : ℕ
deriving DecidableEq

/-- `TTLCache.expire(time)`: drop every entry with `expires <= time`
(cachetools treats an entry as expired exactly when `not (expires > time)`). -/
def expire (t : ℚ) : List CacheEntry → List CacheEntry
  | [] => []
  | e :: es => if t < e.expires then e :: expire t es else expire t es

/-- Whether the store already holds an entry for key `k`
(`key in cache` after expiry). -/
def containsKey (k : CacheKey) : List CacheEntry → Prop
  | [] => False
  | e :: es => e.key = k ∨ containsKey k es

instance containsKeyDec (k : CacheKey) : ∀ es, Decidable (containsKey k es)
  | [] => .isFalse id
  | e :: es =>
    match inferInstanceAs (Decidable (e.key = k)), containsKeyDec k es with
    | .isTrue h, _ => .isTrue (.inl h)
    | _, .isTrue h => .isTrue (.inr h)
    | .isFalse h1, .isFalse h2 => .isFalse (fun h => h.elim h1 h2)

/-- Remove the (unique, in a dict) entry stored under key `k`. -/
def removeKey (k : CacheKey) : List CacheEntry → List CacheEntry
  | [] => []
  | e :: es => if e.key = k then removeKey k es else e :: removeKey k es

/-- The eviction loop of `Cache.__setitem__`: while inserting one more
entry would exceed `maxsize`, `popitem()` removes the earliest-inserted
(equivalently earliest-expiring) entry. -/
def popWhileFull (maxsize : ℕ) : List CacheEntry → List CacheEntry
  | [] => []
  | e :: es =>
    if maxsize < es.length + 2 then popWhileFull maxsize es else e :: es

/-- `TTLCache.__setitem__` at time `t`: first `expire(t)`; then, if the key
is already present, overwrite it and move its link to the end with a fresh
expiry, else evict until there is room and append the new entry. -/
def cacheSetEntries (maxsize : ℕ) (ttl t : ℚ) (k : CacheKey)
    (v : WeatherResponse) (es : List CacheEntry) : List CacheEntry :=
  let es1 := expire t es
  if containsKey k es1 then
    removeKey k es1 ++ [⟨k, v, t + ttl⟩]
  else
    popWhileFull maxsize es1 ++ [⟨k, v, t + ttl⟩]

/-- Find the stored entry for key `k` (dict lookup; at most one entry per
key is ever stored). -/
def findEntry (k : CacheKey) : List CacheEntry → Option CacheEntry
  | [] => none
  | e :: es => if e.key = k then some e else findEntry k es

/-- `TTLCache.__getitem__`-style lookup at time `t`: find the entry for the
key; an expired entry behaves as missing. Does not mutate the store
(cachetools removes stale links lazily, on the next mutating call). -/
def lookupTTL (t : ℚ) (k : CacheKey) (es : List CacheEntry) :
    Option WeatherResponse :=
  match findEntry k es with
  | some e => if e.expires ≤ t then none else some e.value
  | none => none

/-- `len(TTLCache)` at time `t`: the number of non-expired entries. -/
def cacheLen (t : ℚ) (c : CacheState) : ℕ := (expire t c.entries).length

/-- `CacheService.get`: key lookup; a live entry is a hit (hit counter
increments), an expired or absent entry is a miss (miss counter
increments) and returns absent. -/
def cacheGet (t lat lon : ℚ) (c : CacheState) :
    Option WeatherResponse × CacheState :=
  match lookupTTL t (makeKey lat lon) c.entries with
  | some v => (some v, { c with hits := c.hits + 1 })
  | none => (none, { c with misses := c.misses + 1 })

/-- `CacheService.set`: insert/overwrite under the derived key, then set
the size gauge to the current entry count. -/
def cacheSet (t lat lon : ℚ) (v : WeatherResponse) (c : CacheState) :
    CacheState :=
  let es := cacheSetEntries c.maxsize c.ttl t (makeKey lat lon) v c.entries
  { c with entries := es, sizeGauge := (expire t es).length }

/-- `CacheService.clear`. -/
def cacheClear (c : CacheState) : CacheState :=
  { c with entries := [], sizeGauge := 0 }

/-- A fresh `CacheService` built from settings. -/
def emptyCache (maxsize : ℕ) (ttl : ℚ) : CacheState :=
  { maxsize := maxsize, ttl := ttl, entries := [],
    hits := 0, misses := 0, sizeGauge := 0 }

/-- The exception hierarchy of `services/open_meteo.py`. The code declares
three classes: the base `OpenMeteoError` (raised directly both for
transport failures and for parse failures), `OpenMeteoTimeoutError`, and
`OpenMeteoAPIError` which also carries the HTTP status code. -/
inductive OpenMeteoError where
  | base (message : String)
  | timeoutError (message : String)
  | apiError (message : String) (statusCode : ℤ)
deriving DecidableEq

/-- Constructor discriminant of an `OpenMeteoError`: which exception class
the error value belongs to. -/
def OpenMeteoError.kindIdx : OpenMeteoError → ℕ
  | .base _ => 0
  | .timeoutError _ => 1
  | .apiError _ _ => 2

/-- The `current` object of the upstream JSON body; each required numeric
field may be absent. -/
structure CurrentSection where
  temperature2m : Option ℚ
  windSpeed10m : Option ℚ
deriving DecidableEq

/-- The upstream JSON body, with each field the parser looks at possibly
absent (`data.get` / `in` checks in `_parse_response`). -/
structure UpstreamPayload where
  latitude : Option ℚ
  longitude : Option ℚ
  current : Option CurrentSection
deriving DecidableEq

/-- `OpenMeteoResponse` dataclass: the parsed upstream record. -/
structure OpenMeteoResponse where
  latitude : ℚ
  longitude : ℚ
  temperatureC : ℚ
  windSpeedKmh : ℚ
deriving DecidableEq

/-- `OpenMeteoClient._parse_response`: check `latitude`/`longitude`, then
the `current` object, then its two numeric fields; build the record from
exactly the payload's values, never defaulting. Error messages follow
the source (inner quotes elided). -/
def parseResponse (data : UpstreamPayload) :
    Except OpenMeteoError OpenMeteoResponse :=
  match data.latitude, data.longitude with
  | some lat, some lon =>
    match data.current with
    | none => .error (.base "Missing current field in response")
    | some current =>
      match current.temperature2m, current.windSpeed10m with
      | some temp, some wind => .ok ⟨lat, lon, temp, wind⟩
      | _, _ =>
        .error (.base "Missing required weather data in current field")
  | _, _ => .error (.base "Missing required coordinate fields in response")

/-- What the single outbound HTTP request does: raise a timeout, raise a
transport error (`httpx.RequestError`), or deliver a response with a
status code, a text body, and a decoded JSON body. -/
inductive HttpOutcome where
  | timeoutException
  | requestError (message : String)
  | response (statusCode : ℤ) (body : String) (json : UpstreamPayload)
deriving DecidableEq

/-- Per-call delta of the module-level metrics of `open_meteo.py`: the
three labelled cells of `upstream_requests_total` and the number of
observations recorded by the `upstream_request_duration_seconds`
histogram. -/
structure UpstreamMetrics where
  successCount : ℕ
  errorCount : ℕ
  timeoutCount : ℕ
  durationObservations : ℕ
deriving DecidableEq

/-- Zero metrics delta. -/
def zeroMetrics : UpstreamMetrics := ⟨0, 0, 0, 0⟩

/-- `OpenMeteoClient.get_current_weather`, as a function of what the wire
does (`HttpOutcome`). Mirrors the source control flow: the whole body runs
under `upstream_duration.time()` (exactly one observation whatever
happens); a non-200 status increments the `error` cell and raises
`OpenMeteoAPIError` carrying the status code and body; on a 200 status the
`success` cell is incremented BEFORE `_parse_response` runs, so a parse
failure still counts as `success`; `httpx.TimeoutException` increments
`timeout` and raises `OpenMeteoTimeoutError`; any other `httpx.RequestError`
increments `error` and raises the base `OpenMeteoError`. -/
def getCurrentWeather (timeoutSeconds : ℚ) (outcome : HttpOutcome) :
    Except OpenMeteoError OpenMeteoResponse × UpstreamMetrics :=
  let result : Except OpenMeteoError OpenMeteoResponse × UpstreamMetrics :=
    match outcome with
    | .response status body json =>
      if status ≠ 200 then
        (.error (.apiError
            ("Open-Meteo API returned " ++ toString status ++ ": " ++ body)
            status),
          { zeroMetrics with errorCount := 1 })
      else
        (parseResponse json, { zeroMetrics with successCount := 1 })
    | .timeoutException =>
      (.error (.timeoutError
          ("Open-Meteo API request timed out after "
            ++ toString timeoutSeconds ++ "s")),
        { zeroMetrics with timeoutCount := 1 })
    | .requestError msg =>
      (.error (.base ("Open-Meteo API request failed: " ++ msg)),
        { zeroMetrics with errorCount := 1 })
  (result.1, { result.2 with durationObservations := 1 })

/-- State shared by the orchestrator's collaborators: the cache state plus
a count of upstream client invocations. -/
structure SystemState where
  cache : CacheState
  upstreamCalls : ℕ
deriving DecidableEq

/-- `WeatherService.get_weather` at time `now`, with the upstream client
abstracted as a function from coordinates to its result. Cache-first: a
hit returns the cached record with no upstream call and no write; on a
miss the client is called (counted) and a failure propagates unchanged;
on success the normalized record is built from the upstream-returned
coordinates, stored under the original input coordinates, and returned. -/
def getWeather (upstream : ℚ → ℚ → Except OpenMeteoError OpenMeteoResponse)
    (now lat lon : ℚ) (s : SystemState) :
    Except OpenMeteoError WeatherResponse × SystemState :=
  let gr := cacheGet now lat lon s.cache
  match gr.1 with
  | some cached => (.ok cached, { s with cache := gr.2 })
  | none =>
    match upstream lat lon with
    | .error e =>
      (.error e, { cache := gr.2, upstreamCalls := s.upstreamCalls + 1 })
    | .ok u =>
      let response : WeatherResponse :=
        { location := ⟨u.latitude, u.longitude⟩
          current := ⟨u.temperatureC, u.windSpeedKmh⟩
          source := "open-meteo"
          retrievedAt := now }
      (.ok response,
        { cache := cacheSet now lat lon response gr.2,
          upstreamCalls := s.upstreamCalls + 1 })

/-- An upstream client whose single wire interaction is fixed to a given
`HttpOutcome`, composed from `getCurrentWeather` (its per-call metrics are
dropped here; the orchestrator only sees the result). -/
def upstreamFromOutcome (timeoutSeconds : ℚ) (o : HttpOutcome) :
    ℚ → ℚ → Except OpenMeteoError OpenMeteoResponse :=
  fun _ _ => (getCurrentWeather timeoutSeconds o).1

/-- The concrete Berlin payload of the spec scenario. -/
def berlinPayload : UpstreamPayload :=
  { latitude := some 52.52, longitude := some 13.41,
    current := some { temperature2m := some 15.5, windSpeed10m := some 12.3 } }

/-- A cold system state: empty cache with the default settings
(`cache_max_size = 10000`, `cache_ttl_seconds = 60`), no upstream calls. -/
def coldState : SystemState :=
  { cache := emptyCache 10000 60, upstreamCalls := 0 }

/-- A payload whose `current` object is empty. -/
def emptyCurrentPayload : UpstreamPayload :=
  { latitude := some 52.52, longitude := some 13.41,
    current := some { temperature2m := none, windSpeed10m := none } }

/-- A payload with no `current` object at all. -/
def noCurrentPayload : UpstreamPayload :=
  { latitude := some 52.52, longitude := some 13.41, current := none }

/-! ### Helper lemmas about the TTLCache model -/

lemma expire_sublist (t : ℚ) (es : List CacheEntry) :
    (expire t es).Sublist es := by
  induction es with
  | nil => simp [expire]
  | cons e es ih =>
    by_cases h : t < e.expires
    · rw [expire, if_pos h]
      exact ih.cons₂ e
    · rw [expire, if_neg h]
      exact ih.cons e

lemma mem_expire {t : ℚ} {es : List CacheEntry} {e : CacheEntry}
    (h : e ∈ expire t es) : e ∈ es :=
  (expire_sublist t es).mem h

lemma expire_of_live {t : ℚ} {es : List CacheEntry}
    (h : ∀ e ∈ es, t < e.expires) : expire t es = es := by
  induction es with
  | nil => rfl
  | cons e es ih =>
    rw [expire, if_pos (h e (.head es)), ih fun x hx => h x (.tail e hx)]

lemma mem_expire_live {t : ℚ} {es : List CacheEntry} {e : CacheEntry}
    (h : e ∈ expire t es) : t < e.expires := by
  induction es with
  | nil => simp [expire] at h
  | cons x es ih =>
    by_cases hx : t < x.expires
    · rw [expire, if_pos hx] at h
      rcases List.mem_cons.mp h with rfl | h2
      · exact hx
      · exact ih h2
    · rw [expire, if_neg hx] at h
      exact ih h

lemma expire_append (t : ℚ) (a b : List CacheEntry) :
    expire t (a ++ b) = expire t a ++ expire t b := by
  induction a with
  | nil => rfl
  | cons e a ih =>
    by_cases h : t < e.expires <;> simp [expire, h, ih]

lemma containsKey_iff (k : CacheKey) (es : List CacheEntry) :
    containsKey k es ↔ ∃ e ∈ es, e.key = k := by
  induction es with
  | nil => simp [containsKey]
  | cons e es ih => simp [containsKey, ih]

lemma popWhileFull_of_lt {m : ℕ} {es : List CacheEntry}
    (h : es.length < m) : popWhileFull m es = es := by
  cases es with
  | nil => rfl
  | cons e es =>
    rw [popWhileFull, if_neg]
    simp only [List.length_cons] at h
    omega

lemma popWhileFull_of_eq {m : ℕ} {es : List CacheEntry}
    (hm : 0 < m) (h : es.length = m) : popWhileFull m es = es.tail := by
  cases es with
  | nil => simp at h; omega
  | cons e es =>
    simp only [List.length_cons] at h
    rw [popWhileFull, if_pos (by omega), popWhileFull_of_lt (by omega)]
    rfl

lemma mem_popWhileFull {m : ℕ} {es : List CacheEntry} {e : CacheEntry}
    (h : e ∈ popWhileFull m es) : e ∈ es := by
  induction es with
  | nil => simp [popWhileFull] at h
  | cons x es ih =>
    rw [popWhileFull] at h
    by_cases hc : m < es.length + 2
    · rw [if_pos hc] at h
      exact .tail x (ih h)
    · rwa [if_neg hc] at h

lemma mem_removeKey {k : CacheKey} {es : List CacheEntry} {e : CacheEntry}
    (h : e ∈ removeKey k es) : e ∈ es ∧ e.key ≠ k := by
  induction es with
  | nil => simp [removeKey] at h
  | cons x es ih =>
    rw [removeKey] at h
    by_cases hx : x.key = k
    · rw [if_pos hx] at h
      exact ⟨.tail x (ih h).1, (ih h).2⟩
    · rw [if_neg hx] at h
      rcases List.mem_cons.mp h with rfl | h2
      · exact ⟨List.mem_cons_self _ _, hx⟩
      · exact ⟨.tail x (ih h2).1, (ih h2).2⟩

lemma removeKey_of_not_contains {k : CacheKey} {es : List CacheEntry}
    (h : ¬ containsKey k es) : removeKey k es = es := by
  induction es with
  | nil => rfl
  | cons e es ih =>
    rw [containsKey, not_or] at h
    rw [removeKey, if_neg h.1, ih h.2]

lemma length_removeKey {k : CacheKey} {es : List CacheEntry}
    (hnd : (es.map CacheEntry.key).Nodup) (h : containsKey k es) :
    (removeKey k es).length + 1 = es.length := by
  induction es with
  | nil => simp [containsKey] at h
  | cons e es ih =>
    simp only [List.map_cons, List.nodup_cons] at hnd
    rw [containsKey] at h
    by_cases he : e.key = k
    · have : ¬ containsKey k es := by
        rw [containsKey_iff]
        rintro ⟨x, hx, hk⟩
        exact hnd.1 (by rw [he, ← hk]; exact List.mem_map_of_mem _ hx)
      rw [removeKey, if_pos he, removeKey_of_not_contains this]
      simp
    · rcases h with h | h
      · exact absurd h he
      · rw [removeKey, if_neg he]
        simp only [List.length_cons]
        rw [ih hnd.2 h]

lemma findEntry_eq_none {k : CacheKey} {es : List CacheEntry}
    (h : ∀ e ∈ es, e.key ≠ k) : findEntry k es = none := by
  induction es with
  | nil => rfl
  | cons e es ih =>
    rw [findEntry, if_neg (h e (.head es))]
    exact ih fun x hx => h x (.tail e hx)

lemma findEntry_append_of_none {k : CacheKey} {a : List CacheEntry}
    (b : List CacheEntry) (h : ∀ e ∈ a, e.key ≠ k) :
    findEntry k (a ++ b) = findEntry k b := by
  induction a with
  | nil => rfl
  | cons e a ih =>
    rw [List.cons_append, findEntry, if_neg (h e (.head a))]
    exact ih fun x hx => h x (.tail e hx)

lemma findEntry_append_last_ne {k : CacheKey} {e : CacheEntry}
    (a : List CacheEntry) (h : e.key ≠ k) :
    findEntry k (a ++ [e]) = findEntry k a := by
  induction a with
  | nil => simp [findEntry, h]
  | cons x a ih =>
    by_cases hx : x.key = k
    · rw [List.cons_append, findEntry, if_pos hx, findEntry, if_pos hx]
    · rw [List.cons_append, findEntry, if_neg hx, findEntry, if_neg hx, ih]

lemma findEntry_removeKey_ne {k k' : CacheKey} (hne : k' ≠ k)
    (es : List CacheEntry) :
    findEntry k' (removeKey k es) = findEntry k' es := by
  induction es with
  | nil => rfl
  | cons e es ih =>
    by_cases he : e.key = k
    · rw [removeKey, if_pos he, findEntry, if_neg (by rw [he]; exact fun h => hne h.symm), ih]
    · by_cases he' : e.key = k'
      · rw [removeKey, if_neg he, findEntry, if_pos he', findEntry, if_pos he']
      · rw [removeKey, if_neg he, findEntry, if_neg he', findEntry, if_neg he', ih]

/-- After `TTLCache.__setitem__` of key `k`, looking `k` up at time `t2`
yields the stored value until its fresh expiry `t + ttl` passes, and
nothing afterwards. -/
lemma lookupTTL_cacheSetEntries_self (maxsize : ℕ) (ttl t t2 : ℚ)
    (k : CacheKey) (v : WeatherResponse) (es : List CacheEntry) :
    lookupTTL t2 k (cacheSetEntries maxsize ttl t k v es) =
      if t + ttl ≤ t2 then none else some v := by
  have key_ne : ∀ e ∈ (if containsKey k (expire t es) then
      removeKey k (expire t es) else popWhileFull maxsize (expire t es)),
      e.key ≠ k := by
    by_cases hc : containsKey k (expire t es)
    · rw [if_pos hc]
      exact fun e he => (mem_removeKey he).2
    · rw [if_neg hc]
      intro e he hk
      exact hc ((containsKey_iff k _).mpr ⟨e, mem_popWhileFull he, hk⟩)
  rw [cacheSetEntries]
  by_cases hc : containsKey k (expire t es)
  · rw [if_pos hc, lookupTTL,
      findEntry_append_of_none [⟨k, v, t + ttl⟩]
        (by simpa [if_pos hc] using key_ne),
      findEntry, if_pos rfl]
  · rw [if_neg hc, lookupTTL,
      findEntry_append_of_none [⟨k, v, t + ttl⟩]
        (by simpa [if_neg hc] using key_ne),
      findEntry, if_pos rfl]

/-- Every entry stored by `cacheSetEntries` under a key other than `k`
comes from the expired-filtered original store. -/
lemma cacheSetEntries_other_keys {maxsize : ℕ} {ttl t : ℚ} {k : CacheKey}
    {v : WeatherResponse} {es : List CacheEntry} {e : CacheEntry}
    (h : e ∈ cacheSetEntries maxsize ttl t k v es) (hk : e.key ≠ k) :
    e ∈ expire t es := by
  rw [cacheSetEntries] at h
  by_cases hc : containsKey k (expire t es)
  · rw [if_pos hc] at h
    rcases List.mem_append.mp h with h | h
    · exact (mem_removeKey h).1
    · simp at h
      exact absurd (h ▸ rfl) hk
  · rw [if_neg hc] at h
    rcases List.mem_append.mp h with h | h
    · exact mem_popWhileFull h
    · simp at h
      exact absurd (h ▸ rfl) hk

/-- With pairwise-distinct stored keys, filtering out the expired entries
does not change what a TTL-aware lookup returns. -/
lemma lookupTTL_expire {es : List CacheEntry}
    (hnd : (es.map CacheEntry.key).Nodup) (t : ℚ) (k : CacheKey) :
    lookupTTL t k (expire t es) = lookupTTL t k es := by
  induction es with
  | nil => rfl
  | cons e es ih =>
    simp only [List.map_cons, List.nodup_cons] at hnd
    by_cases he : e.key = k
    · by_cases hl : t < e.expires
      · simp [expire, hl, lookupTTL, findEntry, he, not_le.mpr hl]
      · have hnone : findEntry k (expire t es) = none :=
          findEntry_eq_none fun x hx hk =>
            hnd.1 (he ▸ hk ▸ List.mem_map_of_mem _ (mem_expire hx))
        simp [expire, hl, lookupTTL, findEntry, he, hnone, le_of_not_lt hl]
    · by_cases hl : t < e.expires
      · simp only [expire, if_pos hl, lookupTTL, findEntry, if_neg he]
        exact ih hnd.2
      · simp only [expire, if_neg hl, lookupTTL, findEntry, if_neg he]
        exact ih hnd.2

/-- The stored entry list after a set: some prefix of surviving other
entries followed by the freshly inserted entry. -/
lemma cacheSetEntries_decomp (maxsize : ℕ) (ttl t : ℚ) (k : CacheKey)
    (v : WeatherResponse) (es : List CacheEntry) :
    ∃ stuff, cacheSetEntries maxsize ttl t k v es = stuff ++ [⟨k, v, t + ttl⟩]
      ∧ ∀ e ∈ stuff, e.key ≠ k ∧ e ∈ expire t es := by
  by_cases hc : containsKey k (expire t es)
  · exact ⟨removeKey k (expire t es), by rw [cacheSetEntries, if_pos hc],
      fun e he => ⟨(mem_removeKey he).2, (mem_removeKey he).1⟩⟩
  · refine ⟨popWhileFull maxsize (expire t es),
      by rw [cacheSetEntries, if_neg hc], fun e he => ?_⟩
    refine ⟨fun hk => hc ((containsKey_iff k _).mpr
      ⟨e, mem_popWhileFull he, hk⟩), mem_popWhileFull he⟩

/-- Once the fresh expiry of a set key has passed, no live view of the
store contains that key any more. -/
lemma not_containsKey_after_expiry (maxsize : ℕ) (ttl t t2 : ℚ)
    (k : CacheKey) (v : WeatherResponse) (es : List CacheEntry)
    (h : t + ttl ≤ t2) :
    ¬ containsKey k (expire t2 (cacheSetEntries maxsize ttl t k v es)) := by
  obtain ⟨stuff, hdec, hstuff⟩ := cacheSetEntries_decomp maxsize ttl t k v es
  rw [hdec, expire_append]
  intro hcon
  rcases (containsKey_iff k _).mp hcon with ⟨e, he, hk⟩
  rcases List.mem_append.mp he with he | he
  · exact (hstuff e (mem_expire he)).1 hk
  · rw [expire, if_neg (not_lt.mpr h)] at he
    simp [expire] at he

/-- `cacheSet` changes only the entry list and the size gauge. -/
lemma cacheSet_maxsize (t lat lon : ℚ) (v : WeatherResponse)
    (c : CacheState) : (cacheSet t lat lon v c).maxsize = c.maxsize := rfl

lemma cacheSet_ttl (t lat lon : ℚ) (v : WeatherResponse)
    (c : CacheState) : (cacheSet t lat lon v c).ttl = c.ttl := rfl

lemma cacheSet_entries (t lat lon : ℚ) (v : WeatherResponse)
    (c : CacheState) : (cacheSet t lat lon v c).entries =
      cacheSetEntries c.maxsize c.ttl t (makeKey lat lon) v c.entries := rfl

/-! ### A sequence of inserts (for the eviction property) -/

/-- One `(coordinates, record)` item of a sequence of `set` calls. -/
abbrev SetItem : Type := (ℚ × ℚ) × WeatherResponse

/-- The cache key a `set` call derives for an item. -/
def keyOf (p : SetItem) : CacheKey := makeKey p.1.1 p.1.2

/-- The entry a `set` call at time `t` stores for an item. -/
def entryOf (ttl t : ℚ) (p : SetItem) : CacheEntry := ⟨keyOf p, p.2, t + ttl⟩

/-- Perform a sequence of `CacheService.set` calls at time `t`. -/
def setAll (t : ℚ) (l : List SetItem) (c : CacheState) : CacheState :=
  l.foldl (fun c p => cacheSet t p.1.1 p.1.2 p.2 c) c

lemma setAll_cons (t : ℚ) (p : SetItem) (l : List SetItem) (c : CacheState) :
    setAll t (p :: l) c = setAll t l (cacheSet t p.1.1 p.1.2 p.2 c) := rfl

/-- Closed form of the store after a sequence of inserts of fresh,
pairwise-distinct keys at one instant: the sequence is appended in order
and the front of the store is dropped just enough to respect `maxsize`
(FIFO eviction of the least-recently-inserted entries). -/
lemma setAll_entries (t : ℚ) (l : List SetItem) :
    ∀ c : CacheState,
      0 < c.maxsize → 0 < c.ttl →
      (∀ e ∈ c.entries, t < e.expires) →
      ((c.entries.map CacheEntry.key) ++ l.map keyOf).Nodup →
      c.entries.length ≤ c.maxsize →
      (setAll t l c).entries =
        (c.entries ++ l.map (entryOf c.ttl t)).drop
          (c.entries.length + l.length - c.maxsize) := by
  induction l with
  | nil =>
    intro c hN httl hlive hnd hlen
    rw [setAll]
    simp [Nat.sub_eq_zero_of_le hlen]
  | cons p l ih =>
    intro c hN httl hlive hnd hlen
    have hk_not_mem : keyOf p ∉ c.entries.map CacheEntry.key := by
      rcases List.nodup_append.mp hnd with ⟨-, -, hdisj⟩
      exact fun h => hdisj h (by simp)
    have hcont : ¬ containsKey (keyOf p) c.entries := by
      intro h
      rcases (containsKey_iff _ _).mp h with ⟨e, he, hk⟩
      exact hk_not_mem (hk ▸ List.mem_map_of_mem _ he)
    have hexp : expire t c.entries = c.entries := expire_of_live hlive
    have hentries : (cacheSet t p.1.1 p.1.2 p.2 c).entries =
        popWhileFull c.maxsize c.entries ++ [entryOf c.ttl t p] := by
      rw [cacheSet_entries, cacheSetEntries, hexp,
        show makeKey p.1.1 p.1.2 = keyOf p from rfl, if_neg hcont]
      rfl
    rw [setAll_cons]
    rcases lt_or_eq_of_le hlen with hlt | heq
    · have hpop : popWhileFull c.maxsize c.entries = c.entries :=
        popWhileFull_of_lt hlt
      have ihr := ih (cacheSet t p.1.1 p.1.2 p.2 c) hN httl
        (by
          rw [hentries, hpop]
          intro e he
          rcases List.mem_append.mp he with he | he
          · exact hlive e he
          · simp only [List.mem_singleton] at he
            rw [he]
            show t < t + c.ttl
            linarith)
        (by
          rw [hentries, hpop]
          simpa [entryOf] using hnd)
        (by
          rw [hentries, hpop, cacheSet_maxsize]
          simp only [List.length_append, List.length_cons, List.length_nil]
          omega)
      rw [ihr, hentries, hpop, cacheSet_maxsize, cacheSet_ttl]
      simp only [List.length_append, List.length_cons, List.length_nil,
        List.append_assoc, List.singleton_append, List.map_cons]
      congr 1
      omega
    · cases hes : c.entries with
      | nil =>
        rw [hes] at heq
        simp only [List.length_nil] at heq
        omega
      | cons e0 es0 =>
        have hlen0 : es0.length + 1 = c.maxsize := by
          rw [hes] at heq
          simpa using heq
        have hpop : popWhileFull c.maxsize c.entries = es0 := by
          rw [popWhileFull_of_eq hN heq, hes]
          rfl
        have hnd2 : ((es0.map CacheEntry.key) ++ (p :: l).map keyOf).Nodup := by
          rw [hes] at hnd
          simp only [List.map_cons, List.cons_append, List.nodup_cons] at hnd
          exact hnd.2
      
        have ihr := ih (cacheSet t p.1.1 p.1.2 p.2 c) hN httl
          (by
            rw [hentries, hpop]
            intro e he
            rcases List.mem_append.mp he with he | he
            · exact hlive e (by rw [hes]; exact List.mem_cons_of_mem e0 he)
            · simp only [List.mem_singleton] at he
              rw [he]
              show t < t + c.ttl
              linarith)
          (by
            rw [hentries, hpop]
            simpa [entryOf] using hnd2)
          (by
            rw [hentries, hpop, cacheSet_maxsize]
            simp only [List.length_append, List.length_cons, List.length_nil]
            omega)
        rw [ihr, hentries, hpop, cacheSet_maxsize, cacheSet_ttl]
        simp only [List.length_append, List.length_cons, List.length_nil,
          List.append_assoc, List.singleton_append, List.map_cons,
          List.cons_append, List.nil_append, Nat.zero_add]
        have h1 : es0.length + 1 + l.length - c.maxsize = l.length := by
          omega
        have h2 : es0.length + 1 + (l.length + 1) - c.maxsize =
            l.length + 1 := by
          omega
        rw [h1, h2, List.drop_succ_cons]

lemma findEntry_map_entryOf (ttl t : ℚ) :
    ∀ (l : List SetItem), (l.map keyOf).Nodup →
      ∀ p ∈ l, findEntry (keyOf p) (l.map (entryOf ttl t)) =
        some (entryOf ttl t p) := by
  intro l
  induction l with
  | nil => intro _ p hp; simp at hp
  | cons q l ih =>
    intro hnd p hp
    simp only [List.map_cons, List.nodup_cons] at hnd
    rcases List.mem_cons.mp hp with rfl | hp2
    · rw [List.map_cons, findEntry,
        if_pos (show (entryOf ttl t p).key = keyOf p from rfl)]
    · have hne : (entryOf ttl t q).key ≠ keyOf p := by
        intro h
        have h2 : keyOf q = keyOf p := h
        exact hnd.1 (by rw [h2]; exact List.mem_map_of_mem keyOf hp2)
      rw [List.map_cons, findEntry, if_neg hne]
      exact ih hnd.2 p hp2

lemma findEntry_map_entryOf_not_mem (ttl t : ℚ) (l : List SetItem)
    (k : CacheKey) (hk : k ∉ l.map keyOf) :
    findEntry k (l.map (entryOf ttl t)) = none := by
  apply findEntry_eq_none
  intro e he hke
  rcases List.mem_map.mp he with ⟨q, hq, rfl⟩
  exact hk (hke ▸ List.mem_map_of_mem keyOf hq)

/-- The normalized record `WeatherService.get_weather` builds from the
upstream data at time `now`. -/
def mkRecord (u : OpenMeteoResponse) (now : ℚ) : WeatherResponse :=
  { location := ⟨u.latitude, u.longitude⟩
    current := ⟨u.temperatureC, u.windSpeedKmh⟩
    source := "open-meteo"
    retrievedAt := now }

/-- Cache-hit path of the orchestrator: return the cached record, bump the
hit counter, touch nothing else. -/
lemma getWeather_hit {now lat lon : ℚ} {s : SystemState}
    {w : WeatherResponse}
    (up : ℚ → ℚ → Except OpenMeteoError OpenMeteoResponse)
    (h : lookupTTL now (makeKey lat lon) s.cache.entries = some w) :
    getWeather up now lat lon s =
      (.ok w, { s with cache := { s.cache with hits := s.cache.hits + 1 } }) := by
  simp [getWeather, cacheGet, h]

/-- Miss-then-failure path of the orchestrator: the upstream error is
propagated unchanged, the upstream client is called exactly once, and the
entry store is untouched. -/
lemma getWeather_miss_error {now lat lon : ℚ} {s : SystemState}
    {e : OpenMeteoError}
    {up : ℚ → ℚ → Except OpenMeteoError OpenMeteoResponse}
    (h : lookupTTL now (makeKey lat lon) s.cache.entries = none)
    (he : up lat lon = .error e) :
    getWeather up now lat lon s =
      (.error e,
        { cache := { s.cache with misses := s.cache.misses + 1 },
          upstreamCalls := s.upstreamCalls + 1 }) := by
  simp [getWeather, cacheGet, h, he]

/-- Miss-then-success path of the orchestrator: build the record from the
upstream data, store it under the input coordinates, return it. -/
lemma getWeather_miss_ok {now lat lon : ℚ} {s : SystemState}
    {u : OpenMeteoResponse}
    {up : ℚ → ℚ → Except OpenMeteoError OpenMeteoResponse}
    (h : lookupTTL now (makeKey lat lon) s.cache.entries = none)
    (hu : up lat lon = .ok u) :
    getWeather up now lat lon s =
      (.ok (mkRecord u now),
        { cache := cacheSet now lat lon (mkRecord u now)
            { s.cache with misses := s.cache.misses + 1 },
          upstreamCalls := s.upstreamCalls + 1 }) := by
  simp [getWeather, cacheGet, h, hu, mkRecord]

/-! ### Evaluating the rounding on concrete decimals -/

lemma roundHalfEven_eq_down (x : ℚ) (n : ℤ) (h1 : (n : ℚ) ≤ x)
    (h2 : x - n < 1/2) : roundHalfEven x = n := by
  have hfl : ⌊x⌋ = n := Int.floor_eq_iff.mpr ⟨h1, by linarith⟩
  unfold roundHalfEven
  rw [hfl, if_pos (by linarith)]

lemma roundHalfEven_eq_up (x : ℚ) (n : ℤ) (h1 : (n : ℚ) ≤ x)
    (h2 : 1/2 < x - n) (h3 : x < n + 1) : roundHalfEven x = n + 1 := by
  have hfl : ⌊x⌋ = n := Int.floor_eq_iff.mpr ⟨h1, h3⟩
  unfold roundHalfEven
  rw [hfl, if_neg (by linarith), if_pos (by linarith)]

lemma round2_eq_down (x : ℚ) (n : ℤ) (h1 : (n : ℚ) ≤ x * 100)
    (h2 : x * 100 - n < 1/2) : round2 x = (n : ℚ) / 100 := by
  unfold round2
  rw [roundHalfEven_eq_down (x * 100) n h1 h2]

lemma round2_eq_up (x : ℚ) (n : ℤ) (h1 : (n : ℚ) ≤ x * 100)
    (h2 : 1/2 < x * 100 - n) (h3 : x * 100 < n + 1) :
    round2 x = ((n : ℚ) + 1) / 100 := by
  unfold round2
  rw [roundHalfEven_eq_up (x * 100) n h1 h2 h3]
  push_cast
  ring


/-! ### Concrete key computations -/

lemma makeKey_berlin : makeKey 52.52 13.41 = ⟨52.52, 13.41⟩ := by
  unfold makeKey
  rw [round2_eq_down 52.52 5252 (by norm_num) (by norm_num),
    round2_eq_down 13.41 1341 (by norm_num) (by norm_num)]
  simp only [CacheKey.mk.injEq]
  norm_num

lemma makeKey_one : makeKey 1 1 = ⟨1, 1⟩ := by
  unfold makeKey
  rw [round2_eq_down 1 100 (by norm_num) (by norm_num)]
  simp only [CacheKey.mk.injEq]
  norm_num

lemma makeKey_two : makeKey 2 2 = ⟨2, 2⟩ := by
  unfold makeKey
  rw [round2_eq_down 2 200 (by norm_num) (by norm_num)]
  simp only [CacheKey.mk.injEq]
  norm_num

lemma makeKey_three : makeKey 3 3 = ⟨3, 3⟩ := by
  unfold makeKey
  rw [round2_eq_down 3 300 (by norm_num) (by norm_num)]
  simp only [CacheKey.mk.injEq]
  norm_num

/-- The record parsed from `berlinPayload`. -/
def berlinResponse : OpenMeteoResponse := ⟨52.52, 13.41, 15.5, 12.3⟩

/-- The upstream client under the Berlin wire scenario. -/
def berlinUpstream : ℚ → ℚ → Except OpenMeteoError OpenMeteoResponse :=
  upstreamFromOutcome 1 (.response 200 "" berlinPayload)

/-- Sample records for concrete cache scenarios. -/
def w0 : WeatherResponse := ⟨⟨52.52, 13.41⟩, ⟨15.5, 12.3⟩, "open-meteo", 0⟩

def wA : WeatherResponse := ⟨⟨1, 1⟩, ⟨1, 1⟩, "open-meteo", 0⟩

def wB : WeatherResponse := ⟨⟨2, 2⟩, ⟨2, 2⟩, "open-meteo", 0⟩

def wC : WeatherResponse := ⟨⟨3, 3⟩, ⟨3, 3⟩, "open-meteo", 0⟩

/-! ### Claim theorems -/

/-- C2: the parser requires top-level `latitude` and `longitude` and a
`current` object with `temperature_2m` and `wind_speed_10m`; a successful
parse copies exactly the payload values (no defaulting), and each missing
required field/section fails with a parse error whose message names it; in
particular an empty `current` object yields the missing-weather-data
message and a missing `current` yields the missing-field message. -/
theorem parse_requires_all_fields (p : UpstreamPayload) :
    (∀ r, parseResponse p = .ok r →
      p.latitude = some r.latitude ∧ p.longitude = some r.longitude ∧
      ∃ cur, p.current = some cur ∧ cur.temperature2m = some r.temperatureC ∧
        cur.windSpeed10m = some r.windSpeedKmh)
    ∧ (p.latitude = none ∨ p.longitude = none →
        parseResponse p =
          .error (.base "Missing required coordinate fields in response"))
    ∧ (p.latitude ≠ none → p.longitude ≠ none → p.current = none →
        parseResponse p = .error (.base "Missing current field in response"))
    ∧ (∀ cur, p.latitude ≠ none → p.longitude ≠ none → p.current = some cur →
        cur.temperature2m = none ∨ cur.windSpeed10m = none →
        parseResponse p =
          .error (.base "Missing required weather data in current field"))
    ∧ parseResponse emptyCurrentPayload =
        .error (.base "Missing required weather data in current field")
    ∧ parseResponse noCurrentPayload =
        .error (.base "Missing current field in response") := by
  obtain ⟨plat, plon, pcur⟩ := p
  refine ⟨?_, ?_, ?_, ?_, rfl, rfl⟩
  · intro r hr
    rcases plat with _ | lat
    · simp [parseResponse] at hr
    rcases plon with _ | lon
    · simp [parseResponse] at hr
    rcases pcur with _ | ⟨ct, cw⟩
    · simp [parseResponse] at hr
    rcases ct with _ | temp
    · simp [parseResponse] at hr
    rcases cw with _ | wind
    · simp [parseResponse] at hr
    simp only [parseResponse, Except.ok.injEq] at hr
    subst hr
    exact ⟨rfl, rfl, ⟨_, rfl, rfl, rfl⟩⟩
  · rintro (h | h)
    · rw [show plat = none from h]
      rfl
    · rw [show plon = none from h]
      rcases plat with _ | lat <;> rfl
  · intro h1 h2 h3
    rw [show pcur = none from h3]
    rcases plat with _ | lat
    · exact absurd rfl h1
    rcases plon with _ | lon
    · exact absurd rfl h2
    rfl
  · intro cur h1 h2 h3 h4
    rw [show pcur = some cur from h3]
    rcases plat with _ | lat
    · exact absurd rfl h1
    rcases plon with _ | lon
    · exact absurd rfl h2
    obtain ⟨ct, cw⟩ := cur
    rcases h4 with h4 | h4
    · rw [show ct = none from h4]
      rfl
    · rw [show cw = none from h4]
      rcases ct with _ | temp <;> rfl

/-- C2 witness: the two concrete rejection scenarios, via the theorem. -/
theorem parse_requires_all_fields_witness :
    parseResponse emptyCurrentPayload =
        .error (.base "Missing required weather data in current field")
    ∧ parseResponse noCurrentPayload =
        .error (.base "Missing current field in response") :=
  ⟨(parse_requires_all_fields emptyCurrentPayload).2.2.2.2.1,
    (parse_requires_all_fields noCurrentPayload).2.2.2.2.2⟩

/-- C3 (amended): the client's error values form three exception kinds,
not four: `OpenMeteoTimeoutError` for timeouts, `OpenMeteoAPIError`
(carrying the status code) for non-200 statuses, and the base
`OpenMeteoError` class which is raised directly both for transport
failures and for parse failures, so those two failure categories share one
kind and are distinguished only by message text. -/
theorem error_taxonomy_three_kinds (tmo : ℚ) (msg : String) :
    ((getCurrentWeather tmo (.requestError msg)).1 =
      .error (.base ("Open-Meteo API request failed: " ++ msg)))
    ∧ ((getCurrentWeather tmo .timeoutException).1 =
      .error (.timeoutError ("Open-Meteo API request timed out after "
        ++ toString tmo ++ "s")))
    ∧ (∀ (st : ℤ) (b : String) (js : UpstreamPayload), st ≠ 200 →
        (getCurrentWeather tmo (.response st b js)).1 =
          .error (.apiError
            ("Open-Meteo API returned " ++ toString st ++ ": " ++ b) st))
    ∧ (∀ p : UpstreamPayload, (∃ r, parseResponse p = .ok r) ∨
        ∃ m, parseResponse p = .error (.base m))
    ∧ ∀ e : OpenMeteoError, e.kindIdx = 0 ∨ e.kindIdx = 1 ∨ e.kindIdx = 2 := by
  refine ⟨rfl, rfl, ?_, ?_, ?_⟩
  · intro st b js h
    simp [getCurrentWeather, h]
  · intro p
    obtain ⟨plat, plon, pcur⟩ := p
    rcases plat with _ | lat
    · exact .inr ⟨_, rfl⟩
    rcases plon with _ | lon
    · exact .inr ⟨_, rfl⟩
    rcases pcur with _ | ⟨ct, cw⟩
    · exact .inr ⟨_, rfl⟩
    rcases ct with _ | temp
    · exact .inr ⟨_, rfl⟩
    rcases cw with _ | wind
    · exact .inr ⟨_, rfl⟩
    exact .inl ⟨_, rfl⟩
  · intro e
    cases e with
    | base m => exact .inl rfl
    | timeoutError m => exact .inr (.inl rfl)
    | apiError m st => exact .inr (.inr rfl)

/-- C3 witness: the amended taxonomy at concrete inputs. -/
theorem error_taxonomy_three_kinds_witness :
    (getCurrentWeather 1 (.requestError "Connection refused")).1 =
      .error (.base "Open-Meteo API request failed: Connection refused")
    ∧ (getCurrentWeather 1
        (.response 500 "Internal Server Error" berlinPayload)).1 =
      .error (.apiError "Open-Meteo API returned 500: Internal Server Error"
        500) := by
  refine ⟨(error_taxonomy_three_kinds 1 "Connection refused").1, ?_⟩
  exact (error_taxonomy_three_kinds 1 "x").2.2.1 500 "Internal Server Error"
    berlinPayload (by decide)

/-- C3 counterexample: a transport failure (connection refused) and a
parse failure (empty `current` object) produce error values built by the
same constructor (the base class), refuting the claim that
UpstreamTransportError and UpstreamParseError are distinct tagged
variants. -/
theorem transport_parse_same_kind_counterexample :
    (getCurrentWeather 1 (.requestError "Connection refused")).1 =
      .error (.base "Open-Meteo API request failed: Connection refused")
    ∧ (getCurrentWeather 1 (.response 200 "" emptyCurrentPayload)).1 =
      .error (.base "Missing required weather data in current field")
    ∧ OpenMeteoError.kindIdx
        (.base "Open-Meteo API request failed: Connection refused") =
      OpenMeteoError.kindIdx
        (.base "Missing required weather data in current field") :=
  ⟨rfl, rfl, rfl⟩

/-- C4: a non-200 upstream status fails with the status-error kind
carrying the status code and the response body, and an upstream timeout
fails with the timeout kind; concretely, HTTP 500 makes the orchestrator
call fail with the status error for 500 and an upstream timeout makes it
fail with the timeout error. -/
theorem upstream_status_timeout_mapping (tmo : ℚ) (st : ℤ) (b : String)
    (js : UpstreamPayload) (h : st ≠ 200) :
    ((getCurrentWeather tmo (.response st b js)).1 =
      .error (.apiError
        ("Open-Meteo API returned " ++ toString st ++ ": " ++ b) st))
    ∧ ((getCurrentWeather tmo .timeoutException).1 =
      .error (.timeoutError ("Open-Meteo API request timed out after "
        ++ toString tmo ++ "s")))
    ∧ ((getWeather (upstreamFromOutcome 1
          (.response 500 "Internal Server Error" berlinPayload))
          0 52.52 13.41 coldState).1 =
        .error (.apiError "Open-Meteo API returned 500: Internal Server Error"
          500))
    ∧ ((getWeather (upstreamFromOutcome 1 .timeoutException)
          0 52.52 13.41 coldState).1 =
        .error (.timeoutError "Open-Meteo API request timed out after 1s")) := by
  refine ⟨?_, rfl, rfl, rfl⟩
  simp [getCurrentWeather, h]

/-- C4 witness: the mapping at status 500. -/
theorem upstream_status_timeout_mapping_witness :
    (getCurrentWeather 1 (.response 500 "Internal Server Error"
        berlinPayload)).1 =
      .error (.apiError "Open-Meteo API returned 500: Internal Server Error"
        500) :=
  (upstream_status_timeout_mapping 1 500 "Internal Server Error"
    berlinPayload (by decide)).1

/-- C8 (amended): every client call records exactly one histogram
observation and exactly one counter increment; the label is `timeout` for
timeouts, `error` for transport failures and non-200 statuses, and
`success` whenever the HTTP status is 200 — including calls whose payload
then fails to parse, which are therefore counted under `success`, not
`error`. -/
theorem upstream_metrics_once_per_call (tmo : ℚ) (o : HttpOutcome) :
    ((getCurrentWeather tmo o).2.durationObservations = 1)
    ∧ ((getCurrentWeather tmo o).2.successCount +
        (getCurrentWeather tmo o).2.errorCount +
        (getCurrentWeather tmo o).2.timeoutCount = 1)
    ∧ (o = .timeoutException → (getCurrentWeather tmo o).2.timeoutCount = 1)
    ∧ (∀ msg, o = .requestError msg →
        (getCurrentWeather tmo o).2.errorCount = 1)
    ∧ (∀ (st : ℤ) (b : String) (js : UpstreamPayload),
        o = .response st b js → st ≠ 200 →
        (getCurrentWeather tmo o).2.errorCount = 1)
    ∧ (∀ (b : String) (js : UpstreamPayload), o = .response 200 b js →
        (getCurrentWeather tmo o).2.successCount = 1) := by
  cases o with
  | timeoutException => simp [getCurrentWeather, zeroMetrics]
  | requestError m => simp [getCurrentWeather, zeroMetrics]
  | response st b js =>
    by_cases hst : st = 200
    · subst hst
      simp [getCurrentWeather, zeroMetrics]
    · simp [getCurrentWeather, zeroMetrics, hst]

/-- C8 witness: the metrics of a concrete timeout call, via the theorem. -/
theorem upstream_metrics_once_per_call_witness :
    (getCurrentWeather 1 HttpOutcome.timeoutException).2.durationObservations
      = 1
    ∧ (getCurrentWeather 1 HttpOutcome.timeoutException).2.timeoutCount = 1 :=
  ⟨(upstream_metrics_once_per_call 1 .timeoutException).1,
    (upstream_metrics_once_per_call 1 .timeoutException).2.2.1 rfl⟩

/-- C8 counterexample: on a 200 response whose body fails to parse, the
call fails with a parse error but increments the `success` cell, not the
`error` cell — the counter label does not match the call's outcome. -/
theorem parse_failure_labeled_success_counterexample :
    (getCurrentWeather 1 (.response 200 "" emptyCurrentPayload)).1 =
      .error (.base "Missing required weather data in current field")
    ∧ (getCurrentWeather 1
        (.response 200 "" emptyCurrentPayload)).2.successCount = 1
    ∧ (getCurrentWeather 1
        (.response 200 "" emptyCurrentPayload)).2.errorCount = 0 :=
  ⟨rfl, rfl, rfl⟩

lemma findEntry_some_mem {k : CacheKey} {es : List CacheEntry}
    {e : CacheEntry} (h : findEntry k es = some e) : e ∈ es ∧ e.key = k := by
  induction es with
  | nil => simp [findEntry] at h
  | cons x es ih =>
    rw [findEntry] at h
    by_cases hx : x.key = k
    · rw [if_pos hx] at h
      injection h with h
      exact ⟨h ▸ List.mem_cons_self x es, h ▸ hx⟩
    · rw [if_neg hx] at h
      exact ⟨.tail x (ih h).1, (ih h).2⟩

lemma mem_expire_of_live {t : ℚ} {es : List CacheEntry} {e : CacheEntry}
    (he : e ∈ es) (hl : t < e.expires) : e ∈ expire t es := by
  induction es with
  | nil => simp at he
  | cons x es ih =>
    rcases List.mem_cons.mp he with rfl | h2
    · rw [expire, if_pos hl]
      exact List.mem_cons_self _ _
    · by_cases hx : t < x.expires
      · rw [expire, if_pos hx]
        exact List.mem_cons_of_mem x (ih h2)
      · rw [expire, if_neg hx]
        exact ih h2

lemma lookupTTL_some {t : ℚ} {k : CacheKey} {es : List CacheEntry}
    {v : WeatherResponse} (h : lookupTTL t k es = some v) :
    ∃ e, findEntry k es = some e ∧ t < e.expires ∧ e.value = v := by
  unfold lookupTTL at h
  cases hfe : findEntry k es with
  | none =>
    rw [hfe] at h
    simp at h
  | some e =>
    rw [hfe] at h
    have h2 : (if e.expires ≤ t then (none : Option WeatherResponse)
        else some e.value) = some v := h
    by_cases hexp : e.expires ≤ t
    · rw [if_pos hexp] at h2
      simp at h2
    · rw [if_neg hexp] at h2
      injection h2 with h2
      exact ⟨e, rfl, lt_of_not_le hexp, h2⟩

/-- C9: key derivation is a pure, total function of the coordinates
(`makeKey` is a Lean function with no failure path); any two coordinates
whose components round equal at 2 decimals derive the same key, so a `set`
through one coordinate is read back by a `get` through the other; and
(52.5234, 13.4156) collides with (52.5244, 13.4199). -/
theorem cache_key_round2_collision (lat1 lon1 lat2 lon2 : ℚ)
    (hlat : round2 lat1 = round2 lat2) (hlon : round2 lon1 = round2 lon2) :
    makeKey lat1 lon1 = makeKey lat2 lon2
    ∧ (∀ (t : ℚ) (v : WeatherResponse) (c : CacheState), 0 < c.ttl →
        (cacheGet t lat2 lon2 (cacheSet t lat1 lon1 v c)).1 = some v)
    ∧ makeKey 52.5234 13.4156 = makeKey 52.5244 13.4199 := by
  have hk : makeKey lat1 lon1 = makeKey lat2 lon2 := by
    unfold makeKey
    rw [hlat, hlon]
  refine ⟨hk, ?_, ?_⟩
  · intro t v c httl
    have hlook : lookupTTL t (makeKey lat2 lon2)
        (cacheSet t lat1 lon1 v c).entries = some v := by
      rw [← hk, cacheSet_entries, lookupTTL_cacheSetEntries_self,
        if_neg (by linarith)]
    simp [cacheGet, hlook]
  · unfold makeKey
    rw [round2_eq_down 52.5234 5252 (by norm_num) (by norm_num),
      round2_eq_down 52.5244 5252 (by norm_num) (by norm_num),
      round2_eq_up 13.4156 1341 (by norm_num) (by norm_num) (by norm_num),
      round2_eq_up 13.4199 1341 (by norm_num) (by norm_num) (by norm_num)]

/-- C9 witness: the concrete colliding pair addresses one entry. -/
theorem cache_key_round2_collision_witness :
    makeKey 52.5234 13.4156 = makeKey 52.5244 13.4199
    ∧ (cacheGet 0 52.5244 13.4199
        (cacheSet 0 52.5234 13.4156 w0 (emptyCache 10000 60))).1 =
      some w0 := by
  have hlat : round2 52.5234 = round2 52.5244 := by
    rw [round2_eq_down 52.5234 5252 (by norm_num) (by norm_num),
      round2_eq_down 52.5244 5252 (by norm_num) (by norm_num)]
  have hlon : round2 13.4156 = round2 13.4199 := by
    rw [round2_eq_up 13.4156 1341 (by norm_num) (by norm_num) (by norm_num),
      round2_eq_up 13.4199 1341 (by norm_num) (by norm_num) (by norm_num)]
  obtain ⟨-, h2, h3⟩ :=
    cache_key_round2_collision 52.5234 13.4156 52.5244 13.4199 hlat hlon
  exact ⟨h3, h2 0 w0 (emptyCache 10000 60) (show (0:ℚ) < 60 by norm_num)⟩

/-- C7: an entry set at time `T` is returned (and counted as a hit) by any
get before `T + ttl`, and at `T + ttl + eps2` the get returns absent,
counts a miss, and the stale entry is gone from every live view of the
store (cachetools removes it lazily; it is already invisible to lookups
and to the expiry-aware length). -/
theorem ttl_expiry_window (c : CacheState) (lat lon T eps eps2 : ℚ)
    (v : WeatherResponse) (_h1 : 0 ≤ eps) (h2 : eps < c.ttl)
    (h3 : 0 ≤ eps2) :
    ((cacheGet (T + eps) lat lon (cacheSet T lat lon v c)).1 = some v)
    ∧ ((cacheGet (T + eps) lat lon (cacheSet T lat lon v c)).2.hits =
        (cacheSet T lat lon v c).hits + 1)
    ∧ ((cacheGet (T + c.ttl + eps2) lat lon (cacheSet T lat lon v c)).1 =
        none)
    ∧ ((cacheGet (T + c.ttl + eps2) lat lon
        (cacheSet T lat lon v c)).2.misses =
        (cacheSet T lat lon v c).misses + 1)
    ∧ ¬ containsKey (makeKey lat lon)
        (expire (T + c.ttl + eps2) (cacheSet T lat lon v c).entries) := by
  have hlook1 : lookupTTL (T + eps) (makeKey lat lon)
      (cacheSet T lat lon v c).entries = some v := by
    rw [cacheSet_entries, lookupTTL_cacheSetEntries_self,
      if_neg (by linarith)]
  have hlook2 : lookupTTL (T + c.ttl + eps2) (makeKey lat lon)
      (cacheSet T lat lon v c).entries = none := by
    rw [cacheSet_entries, lookupTTL_cacheSetEntries_self,
      if_pos (by linarith)]
  refine ⟨?_, ?_, ?_, ?_, ?_⟩
  · simp [cacheGet, hlook1]
  · simp [cacheGet, hlook1]
  · simp [cacheGet, hlook2]
  · simp [cacheGet, hlook2]
  · rw [cacheSet_entries]
    exact not_containsKey_after_expiry _ _ _ _ _ _ _ (by linarith)

/-- C7 witness: ttl 60, insert at 0, hit at 30, absent at 61. -/
theorem ttl_expiry_window_witness :
    ((cacheGet (0 + 30) 52.52 13.41
        (cacheSet 0 52.52 13.41 w0 (emptyCache 10000 60))).1 = some w0)
    ∧ ((cacheGet (0 + (emptyCache 10000 60).ttl + 1) 52.52 13.41
        (cacheSet 0 52.52 13.41 w0 (emptyCache 10000 60))).1 = none) := by
  obtain ⟨g1, g2, g3, g4, g5⟩ :=
    ttl_expiry_window (emptyCache 10000 60) 52.52 13.41 0 30 1 w0
      (by norm_num) (show (30:ℚ) < 60 by norm_num) (by norm_num)
  exact ⟨g1, g3⟩

/-- C10: a set whose key is already present and unexpired overwrites that
entry in place: the (expiry-aware) entry count is unchanged, no other
entry is evicted, and every entry under a different key keeps its stored
record. -/
theorem set_overwrite_in_place (c : CacheState) (lat lon t : ℚ)
    (v v0 : WeatherResponse)
    (hnd : (c.entries.map CacheEntry.key).Nodup)
    (httl : 0 < c.ttl)
    (hpresent : lookupTTL t (makeKey lat lon) c.entries = some v0) :
    cacheLen t (cacheSet t lat lon v c) = cacheLen t c
    ∧ (cacheGet t lat lon (cacheSet t lat lon v c)).1 = some v
    ∧ ∀ lat2 lon2, makeKey lat2 lon2 ≠ makeKey lat lon →
        (cacheGet t lat2 lon2 (cacheSet t lat lon v c)).1 =
          (cacheGet t lat2 lon2 c).1 := by
  obtain ⟨e, hfe, helive, hev⟩ := lookupTTL_some hpresent
  have hmem := findEntry_some_mem hfe
  have hcont : containsKey (makeKey lat lon) (expire t c.entries) :=
    (containsKey_iff _ _).mpr ⟨e, mem_expire_of_live hmem.1 helive, hmem.2⟩
  have hes1 : (cacheSet t lat lon v c).entries =
      removeKey (makeKey lat lon) (expire t c.entries) ++
        [⟨makeKey lat lon, v, t + c.ttl⟩] := by
    rw [cacheSet_entries, cacheSetEntries, if_pos hcont]
  have hnd1 : ((expire t c.entries).map CacheEntry.key).Nodup :=
    hnd.sublist ((expire_sublist t c.entries).map CacheEntry.key)
  refine ⟨?_, ?_, ?_⟩
  · have hrml := length_removeKey hnd1 hcont
    have hsing : expire t [(⟨makeKey lat lon, v, t + c.ttl⟩ : CacheEntry)] =
        [⟨makeKey lat lon, v, t + c.ttl⟩] :=
      expire_of_live (fun x hx => by
        simp only [List.mem_singleton] at hx
        rw [hx]
        show t < t + c.ttl
        linarith)
    rw [cacheLen, hes1, expire_append,
      expire_of_live (fun x hx => mem_expire_live (mem_removeKey hx).1),
      hsing]
    rw [cacheLen]
    simp only [List.length_append, List.length_cons, List.length_nil]
    omega
  · have hlook : lookupTTL t (makeKey lat lon)
        (cacheSet t lat lon v c).entries = some v := by
      rw [cacheSet_entries, lookupTTL_cacheSetEntries_self,
        if_neg (by linarith)]
    simp [cacheGet, hlook]
  · intro lat2 lon2 hne
    have hkne : (⟨makeKey lat lon, v, t + c.ttl⟩ : CacheEntry).key ≠
        makeKey lat2 lon2 := fun h => hne h.symm
    have hl : lookupTTL t (makeKey lat2 lon2)
        (cacheSet t lat lon v c).entries =
        lookupTTL t (makeKey lat2 lon2) c.entries := by
      rw [hes1]
      unfold lookupTTL
      rw [findEntry_append_last_ne _ hkne, findEntry_removeKey_ne hne]
      have hx := lookupTTL_expire hnd t (makeKey lat2 lon2)
      unfold lookupTTL at hx
      exact hx
    cases hcase : lookupTTL t (makeKey lat2 lon2) c.entries with
    | none => simp [cacheGet, hl, hcase]
    | some w => simp [cacheGet, hl, hcase]

/-- C10 witness: overwriting the single Berlin entry keeps the size at 1
and makes the new record visible. -/
theorem set_overwrite_in_place_witness :
    cacheLen 0 (cacheSet 0 52.52 13.41 wA
        (cacheSet 0 52.52 13.41 w0 (emptyCache 10000 60))) =
      cacheLen 0 (cacheSet 0 52.52 13.41 w0 (emptyCache 10000 60))
    ∧ (cacheGet 0 52.52 13.41 (cacheSet 0 52.52 13.41 wA
        (cacheSet 0 52.52 13.41 w0 (emptyCache 10000 60)))).1 = some wA := by
  have hnd : (((cacheSet 0 52.52 13.41 w0
      (emptyCache 10000 60)).entries).map CacheEntry.key).Nodup := by
    rw [show (cacheSet 0 52.52 13.41 w0 (emptyCache 10000 60)).entries =
      [⟨makeKey 52.52 13.41, w0, 0 + 60⟩] from rfl]
    simp
  have hpres : lookupTTL 0 (makeKey 52.52 13.41)
      (cacheSet 0 52.52 13.41 w0 (emptyCache 10000 60)).entries =
      some w0 := by
    rw [cacheSet_entries, lookupTTL_cacheSetEntries_self]
    norm_num [emptyCache]
  obtain ⟨g1, g2, g3⟩ := set_overwrite_in_place
    (cacheSet 0 52.52 13.41 w0 (emptyCache 10000 60)) 52.52 13.41 0 wA w0
    hnd (show (0:ℚ) < 60 by norm_num) hpres
  exact ⟨g1, g2⟩

/-- C5: on a cache miss whose upstream fetch fails, the orchestrator
propagates the error value unchanged, performs exactly one upstream call
(zero retries), and leaves the cache entry map and size gauge untouched
(`Cache.set` is never invoked on the failure path). -/
theorem miss_failure_propagates_unchanged
    (up : ℚ → ℚ → Except OpenMeteoError OpenMeteoResponse)
    (now lat lon : ℚ) (s : SystemState) (e : OpenMeteoError)
    (hmiss : lookupTTL now (makeKey lat lon) s.cache.entries = none)
    (herr : up lat lon = .error e) :
    ((getWeather up now lat lon s).1 = .error e)
    ∧ ((getWeather up now lat lon s).2.upstreamCalls = s.upstreamCalls + 1)
    ∧ ((getWeather up now lat lon s).2.cache.entries = s.cache.entries)
    ∧ ((getWeather up now lat lon s).2.cache.sizeGauge =
        s.cache.sizeGauge) := by
  rw [getWeather_miss_error hmiss herr]
  exact ⟨rfl, rfl, rfl, rfl⟩

/-- C5 witness: the 500 scenario on a cold cache, via the theorem. -/
theorem miss_failure_propagates_unchanged_witness :
    ((getWeather (upstreamFromOutcome 1
        (.response 500 "Internal Server Error" berlinPayload))
        0 52.52 13.41 coldState).1 =
      .error (.apiError "Open-Meteo API returned 500: Internal Server Error"
        500))
    ∧ ((getWeather (upstreamFromOutcome 1
        (.response 500 "Internal Server Error" berlinPayload))
        0 52.52 13.41 coldState).2.upstreamCalls = 1)
    ∧ ((getWeather (upstreamFromOutcome 1
        (.response 500 "Internal Server Error" berlinPayload))
        0 52.52 13.41 coldState).2.cache.entries =
      coldState.cache.entries) := by
  obtain ⟨g1, g2, g3, g4⟩ := miss_failure_propagates_unchanged
    (upstreamFromOutcome 1
      (.response 500 "Internal Server Error" berlinPayload))
    0 52.52 13.41 coldState
    (.apiError "Open-Meteo API returned 500: Internal Server Error" 500)
    rfl rfl
  exact ⟨g1, g2, g3⟩

/-- C1: after a cache-miss call that succeeds, a second orchestrator call
with the same coordinates before the entry expires returns the stored
record with zero additional upstream calls; concretely, on a cold cache
with the Berlin payload, the first call returns temperature 15.5 and wind
speed 12.3 after exactly one upstream call, and a repeat call at time 30
returns the identical record with the upstream count still 1. -/
theorem orchestrator_cache_hit_bypass
    (up : ℚ → ℚ → Except OpenMeteoError OpenMeteoResponse)
    (t0 t1 lat lon : ℚ) (s : SystemState) (u : OpenMeteoResponse)
    (hmiss : lookupTTL t0 (makeKey lat lon) s.cache.entries = none)
    (hok : up lat lon = .ok u)
    (hwithin : t1 < t0 + s.cache.ttl) :
    ((getWeather up t0 lat lon s).1 = .ok (mkRecord u t0))
    ∧ ((getWeather up t0 lat lon s).2.upstreamCalls = s.upstreamCalls + 1)
    ∧ ((getWeather up t1 lat lon (getWeather up t0 lat lon s).2).1 =
        .ok (mkRecord u t0))
    ∧ ((getWeather up t1 lat lon
        (getWeather up t0 lat lon s).2).2.upstreamCalls =
        s.upstreamCalls + 1)
    ∧ ((getWeather berlinUpstream 0 52.52 13.41 coldState).1 =
        .ok (mkRecord berlinResponse 0))
    ∧ ((mkRecord berlinResponse 0).current.temperatureC = 15.5)
    ∧ ((mkRecord berlinResponse 0).current.windSpeedKmh = 12.3)
    ∧ ((getWeather berlinUpstream 0 52.52 13.41 coldState).2.upstreamCalls
        = 1)
    ∧ ((getWeather berlinUpstream 30 52.52 13.41
        (getWeather berlinUpstream 0 52.52 13.41 coldState).2).1 =
        .ok (mkRecord berlinResponse 0))
    ∧ ((getWeather berlinUpstream 30 52.52 13.41
        (getWeather berlinUpstream 0 52.52 13.41
          coldState).2).2.upstreamCalls = 1) := by
  have h1 := getWeather_miss_ok hmiss hok
  have hs2 : (getWeather up t0 lat lon s).2 =
      { cache := cacheSet t0 lat lon (mkRecord u t0)
          { s.cache with misses := s.cache.misses + 1 },
        upstreamCalls := s.upstreamCalls + 1 } := by
    rw [h1]
  have hlook2 : lookupTTL t1 (makeKey lat lon)
      (SystemState.mk
        (cacheSet t0 lat lon (mkRecord u t0)
          { s.cache with misses := s.cache.misses + 1 })
        (s.upstreamCalls + 1)).cache.entries =
      some (mkRecord u t0) := by
    show lookupTTL t1 (makeKey lat lon)
      (cacheSet t0 lat lon (mkRecord u t0)
        { s.cache with misses := s.cache.misses + 1 }).entries =
      some (mkRecord u t0)
    rw [cacheSet_entries, lookupTTL_cacheSetEntries_self]
    exact if_neg (not_le.mpr hwithin)
  have h2 := getWeather_hit up hlook2
  have hmb : lookupTTL 0 (makeKey 52.52 13.41) coldState.cache.entries =
      none := rfl
  have hob : berlinUpstream 52.52 13.41 = .ok berlinResponse := rfl
  have h1b := getWeather_miss_ok hmb hob
  have hs2b : (getWeather berlinUpstream 0 52.52 13.41 coldState).2 =
      { cache := cacheSet 0 52.52 13.41 (mkRecord berlinResponse 0)
          { coldState.cache with misses := coldState.cache.misses + 1 },
        upstreamCalls := coldState.upstreamCalls + 1 } := by
    rw [h1b]
  have hlook2b : lookupTTL 30 (makeKey 52.52 13.41)
      (SystemState.mk
        (cacheSet 0 52.52 13.41 (mkRecord berlinResponse 0)
          { coldState.cache with misses := coldState.cache.misses + 1 })
        (coldState.upstreamCalls + 1)).cache.entries
      = some (mkRecord berlinResponse 0) := by
    show lookupTTL 30 (makeKey 52.52 13.41)
      (cacheSet 0 52.52 13.41 (mkRecord berlinResponse 0)
        { coldState.cache with misses := coldState.cache.misses + 1 }).entries
      = some (mkRecord berlinResponse 0)
    rw [cacheSet_entries, lookupTTL_cacheSetEntries_self]
    exact if_neg (show ¬ ((0:ℚ) + 60 ≤ 30) by norm_num)
  have h2b := getWeather_hit berlinUpstream hlook2b
  refine ⟨?_, ?_, ?_, ?_, ?_, rfl, rfl, ?_, ?_, ?_⟩
  · rw [h1]
  · rw [h1]
  · rw [hs2, h2]
  · rw [hs2, h2]
  · rw [h1b]
  · rw [h1b]
    rfl
  · rw [hs2b, h2b]
  · rw [hs2b, h2b]
    rfl

/-- C1 witness: the theorem applied to the Berlin scenario. -/
theorem orchestrator_cache_hit_bypass_witness :
    ((getWeather berlinUpstream 0 52.52 13.41 coldState).2.upstreamCalls = 1)
    ∧ ((getWeather berlinUpstream 30 52.52 13.41
        (getWeather berlinUpstream 0 52.52 13.41 coldState).2).1 =
        .ok (mkRecord berlinResponse 0))
    ∧ ((getWeather berlinUpstream 30 52.52 13.41
        (getWeather berlinUpstream 0 52.52 13.41
          coldState).2).2.upstreamCalls = 1) := by
  obtain ⟨-, -, -, -, -, -, -, g8, g9, g10⟩ :=
    orchestrator_cache_hit_bypass berlinUpstream 0 30 52.52 13.41 coldState
      berlinResponse rfl rfl (show (30:ℚ) < 0 + 60 by norm_num)
  exact ⟨g8, g9, g10⟩

/-- C6: inserting N+1 pairwise-distinct keys (at one instant, ttl and N
positive) into a cache of maximum size N leaves exactly N entries; the
first-inserted (least-recently-inserted) key is the absent one and every
later key is present with its stored record. -/
theorem max_size_eviction_fifo (N : ℕ) (ttl t : ℚ) (l : List SetItem)
    (hN : 0 < N) (httl : 0 < ttl) (hlen : l.length = N + 1)
    (hnd : (l.map keyOf).Nodup) :
    cacheLen t (setAll t l (emptyCache N ttl)) = N
    ∧ (∀ p0, l.head? = some p0 →
        (cacheGet t p0.1.1 p0.1.2 (setAll t l (emptyCache N ttl))).1 = none)
    ∧ ∀ p ∈ l.tail,
        (cacheGet t p.1.1 p.1.2 (setAll t l (emptyCache N ttl))).1 =
          some p.2 := by
  have hentries := setAll_entries t l (emptyCache N ttl) hN httl
    (by simp [emptyCache]) (by simpa [emptyCache] using hnd)
    (by simp [emptyCache])
  have hE : (setAll t l (emptyCache N ttl)).entries =
      (l.map (entryOf ttl t)).drop 1 := by
    rw [hentries]
    simp only [emptyCache, List.nil_append, List.length_nil]
    congr 1
    omega
  cases l with
  | nil => simp at hlen
  | cons p0 rest =>
    have hrest_len : rest.length = N := by simpa using hlen
    have hE2 : (setAll t (p0 :: rest) (emptyCache N ttl)).entries =
        rest.map (entryOf ttl t) := by
      rw [hE]
      simp
    simp only [List.map_cons, List.nodup_cons] at hnd
    have hlive : ∀ e ∈ rest.map (entryOf ttl t), t < e.expires := by
      intro e he
      rcases List.mem_map.mp he with ⟨q, hq, rfl⟩
      show t < t + ttl
      linarith
    refine ⟨?_, ?_, ?_⟩
    · rw [cacheLen, hE2, expire_of_live hlive]
      simp [hrest_len]
    · intro p0x hp0
      simp only [List.head?_cons, Option.some.injEq] at hp0
      obtain rfl : p0x = p0 := hp0.symm
      have hnone : lookupTTL t (makeKey p0x.1.1 p0x.1.2)
          (rest.map (entryOf ttl t)) = none := by
        unfold lookupTTL
        rw [findEntry_map_entryOf_not_mem ttl t rest
          (makeKey p0x.1.1 p0x.1.2) hnd.1]
      simp [cacheGet, hE2, hnone]
    · intro p hp
      simp only [List.tail_cons] at hp
      have hfe2 : findEntry (makeKey p.1.1 p.1.2)
          (rest.map (entryOf ttl t)) = some (entryOf ttl t p) :=
        findEntry_map_entryOf ttl t rest hnd.2 p hp
      have hlook : lookupTTL t (makeKey p.1.1 p.1.2)
          (rest.map (entryOf ttl t)) = some p.2 := by
        unfold lookupTTL
        rw [hfe2]
        show (if t + ttl ≤ t then none else some p.2) = some p.2
        rw [if_neg (by linarith)]
      simp [cacheGet, hE2, hlook]

/-- C6 witness: max size 2, keys (1,1), (2,2), (3,3) inserted in order —
size stays 2, the first key is absent, the other two are present. -/
theorem max_size_eviction_fifo_witness :
    cacheLen 0 (setAll 0 [((1, 1), wA), ((2, 2), wB), ((3, 3), wC)]
        (emptyCache 2 60)) = 2
    ∧ (cacheGet 0 1 1 (setAll 0 [((1, 1), wA), ((2, 2), wB), ((3, 3), wC)]
        (emptyCache 2 60))).1 = none
    ∧ (cacheGet 0 2 2 (setAll 0 [((1, 1), wA), ((2, 2), wB), ((3, 3), wC)]
        (emptyCache 2 60))).1 = some wB
    ∧ (cacheGet 0 3 3 (setAll 0 [((1, 1), wA), ((2, 2), wB), ((3, 3), wC)]
        (emptyCache 2 60))).1 = some wC := by
  have hnd : (([((1, 1), wA), ((2, 2), wB),
      ((3, 3), wC)] : List SetItem).map keyOf).Nodup := by
    simp only [List.map_cons, List.map_nil, keyOf]
    norm_num [makeKey_one, makeKey_two, makeKey_three, List.nodup_cons,
      List.mem_cons, CacheKey.mk.injEq]
  obtain ⟨g1, g2, g3⟩ := max_size_eviction_fifo 2 60 0
    [((1, 1), wA), ((2, 2), wB), ((3, 3), wC)]
    (by norm_num) (by norm_num) rfl hnd
  exact ⟨g1, g2 ((1, 1), wA) rfl, g3 ((2, 2), wB) (by simp),
    g3 ((3, 3), wC) (by simp)⟩

end MeteoProxy
